import Mathlib

/-!
Verification of the `relay` multi-source chat aggregator.

Shallow embedding of the Go sources:
  * `internal/message/message.go`  — the common `Message` value type,
  * `internal/twitch/client.go`    — the IRC source adapter (`parsePrivMsg`, `NewClient`),
  * `internal/youtube/client.go`   — the polling source adapter,
  * `internal/hackrtv` (socket adapter) — subscription matching and the read loop,
  * `internal/uplink` (bridge sender)   — `FormatContent`, `Send` classification, `Run`,
  * `main.go`                      — the dispatcher fan-out and `isBridgeEcho`.

Go strings are modelled as Lean `String`s; where Go's byte-level view matters
(`len`, slicing) we work with the explicit UTF-8 byte list.  `time.Time` values
are modelled as `Int` nanoseconds since 0001-01-01T00:00:00 UTC (Go's zero
instant is `0`); `time.Now()` is modelled by an explicit `now` parameter.
-/

namespace Relay

/-- Platform enum from `internal/message/message.go`
(`Twitch = iota`, `YouTube`, `HackrTV`). -/
inductive Platform where
  | Twitch
  | YouTube
  | HackrTV
deriving DecidableEq, Repr

/-- Model of `Platform.String()` from `internal/message/message.go`: the 3-character
display code used as the wire tag. -/
def Platform.str : Platform → String
  | .Twitch => "TTV"
  | .YouTube => "YT_"
  | .HackrTV => "HTV"

/-- Model of `message.Message` from `internal/message/message.go`.  `Timestamp` is an
instant in nanoseconds since the Go zero time. -/
structure Message where
  platform : Platform
  username : String
  timestamp : Int
  content : String
deriving DecidableEq, Repr

/-! Go string helpers

Models of the `strings` package functions the sources use, at `List Char`
granularity (Go indexes bytes; for the claims below every index the code
computes falls on an ASCII boundary of the strings involved, and the list-of-
chars model keeps the same observable splits). -/

/-- Index of the first occurrence of `needle` in `hay`, as `strings.Index`
(`none` for Go's `-1`). -/
def listIndexOf : List Char → List Char → Option Nat
  | _, [] => none
  | needle, c :: rest =>
    if needle.isPrefixOf (c :: rest) then some 0
    else (listIndexOf needle rest).map (· + 1)

/-- Model of `strings.Index(hay, needle)` (for nonempty `needle`), `none` for `-1`. -/
def goIndex (hay needle : String) : Option Nat :=
  listIndexOf needle.toList hay.toList

/-- Model of `strings.Contains(hay, needle)`. -/
def goContains (hay needle : String) : Bool :=
  (goIndex hay needle).isSome

/-- Model of `strings.HasPrefix(s, p)`. -/
def goHasPre (s p : String) : Bool :=
  p.toList.isPrefixOf s.toList

/-- Model of `strings.SplitN(s, sep, 2)`: `(before, some after)` when `sep` occurs in
`s`, `(s, none)` otherwise (Go returns a 1-element slice then). -/
def goSplitN2 (s sep : String) : String × Option String :=
  match goIndex s sep with
  | none => (s, none)
  | some i =>
    (⟨s.toList.take i⟩, some ⟨s.toList.drop (i + sep.toList.length)⟩)

/-- ASCII model of `strings.ToLower`. -/
def goToLower (s : String) : String :=
  ⟨s.toList.map Char.toLower⟩

/-- ASCII model of `strings.EqualFold`. -/
def goEqualFold (a b : String) : Bool :=
  goToLower a == goToLower b

/-! RFC3339 timestamps, modelling `time.Parse(time.RFC3339, s)`.

A strict parser for the layout `2006-01-02T15:04:05(.fff…)?(Z|±hh:mm)`,
returning the instant in nanoseconds since 0001-01-01T00:00:00 UTC.
On failure Go returns the zero `time.Time` together with an error; we return
`none`, and call sites reconstruct Go's two behaviours (`err != nil` in the
socket adapter, `IsZero()` in the polling adapter). -/

def isDigitCh (c : Char) : Bool := '0' ≤ c && c ≤ '9'

def digitVal (c : Char) : Nat := c.toNat - '0'.toNat

/-- Read exactly `n` decimal digits. -/
def readDigits : Nat → List Char → Option (Nat × List Char)
  | 0, cs => some (0, cs)
  | _ + 1, [] => none
  | n + 1, c :: cs =>
    if isDigitCh c then
      (readDigits n cs).bind fun (v, rest) =>
        some (digitVal c * 10 ^ n + v, rest)
    else none

/-- Expect a literal character. -/
def expectCh (c : Char) : List Char → Option (List Char)
  | [] => none
  | d :: cs => if d = c then some cs else none

def isLeapYear (y : Nat) : Bool :=
  y % 4 == 0 && (y % 100 != 0 || y % 400 == 0)

def daysInMonth (y m : Nat) : Nat :=
  match m with
  | 1 => 31 | 2 => if isLeapYear y then 29 else 28
  | 3 => 31 | 4 => 30 | 5 => 31 | 6 => 30 | 7 => 31
  | 8 => 31 | 9 => 30 | 10 => 31 | 11 => 30 | 12 => 31
  | _ => 0

def daysBeforeMonth (y m : Nat) : Nat :=
  (List.range (m - 1)).foldl (fun acc i => acc + daysInMonth y (i + 1)) 0

/-- Days from 0001-01-01 to `y`-`m`-`d` (proleptic Gregorian, `y ≥ 1`). -/
def daysFromCivil (y m d : Nat) : Nat :=
  365 * (y - 1) + (y - 1) / 4 - (y - 1) / 100 + (y - 1) / 400
    + daysBeforeMonth y m + (d - 1)

/-- Fractional-second digits to nanoseconds (first 9 digits, Go truncates the
rest). -/
def fracToNanos (ds : List Char) : Nat :=
  let ds9 := ds.take 9
  (ds9.foldl (fun acc c => acc * 10 + digitVal c) 0) * 10 ^ (9 - ds9.length)

/-- Optional fractional seconds: `.ddd…` or `,ddd…` with at least one digit. -/
def readFraction : List Char → Option (Nat × List Char)
  | c :: cs =>
    if c = '.' || c = ',' then
      let ds := cs.takeWhile isDigitCh
      if ds.isEmpty then none
      else some (fracToNanos ds, cs.dropWhile isDigitCh)
    else some (0, c :: cs)
  | [] => some (0, [])

/-- UTC offset: `Z` or `±hh:mm`; result in seconds east of UTC. -/
def readOffset : List Char → Option (Int × List Char)
  | 'Z' :: cs => some (0, cs)
  | c :: cs =>
    if c = '+' || c = '-' then
      (readDigits 2 cs).bind fun (oh, cs) =>
      (expectCh ':' cs).bind fun cs =>
      (readDigits 2 cs).bind fun (om, cs) =>
      if oh ≤ 23 && om ≤ 59 then
        let secs : Int := (oh * 3600 + om * 60 : Nat)
        some (if c = '+' then secs else -secs, cs)
      else none
    else none
  | [] => none

/-- Model of `time.Parse(time.RFC3339, s)`: `some` instant (nanoseconds since the Go
zero time) on success, `none` on error. -/
def parseRFC3339 (s : String) : Option Int :=
  (readDigits 4 s.toList).bind fun (y, cs) =>
  (expectCh '-' cs).bind fun cs =>
  (readDigits 2 cs).bind fun (mo, cs) =>
  (expectCh '-' cs).bind fun cs =>
  (readDigits 2 cs).bind fun (d, cs) =>
  (expectCh 'T' cs).bind fun cs =>
  (readDigits 2 cs).bind fun (h, cs) =>
  (expectCh ':' cs).bind fun cs =>
  (readDigits 2 cs).bind fun (mi, cs) =>
  (expectCh ':' cs).bind fun cs =>
  (readDigits 2 cs).bind fun (sec, cs) =>
  (readFraction cs).bind fun (nsec, cs) =>
  (readOffset cs).bind fun (off, cs) =>
  if cs.isEmpty && 1 ≤ y && 1 ≤ mo && mo ≤ 12 && 1 ≤ d &&
      d ≤ daysInMonth y mo && h ≤ 23 && mi ≤ 59 && sec ≤ 59 then
    some ((((daysFromCivil y mo d) * 86400 + h * 3600 + mi * 60 + sec : Nat) : Int)
            * 1000000000 - off * 1000000000 + (nsec : Nat))
  else none

/-! Socket source adapter (package hackrtv, src/unnamed/part_001).

The `encoding/json` decoding of ActionCable identifier strings into
`channelIdentifier` is modelled by a full JSON value parser following Go's
scanner and decoder semantics: whitespace between tokens is skipped; string
literals support the eight single-character escapes and backslash-u hex
escapes with UTF-16 surrogate-pair combining (an invalid surrogate becomes
U+FFFD without an error, exactly as in Go's unquote), while raw control
characters below 0x20 are a syntax error; numbers follow the JSON grammar;
unknown object members of any value type are skipped without error; a member
for a known struct field must be a string (null is a decoding no-op, any
other type is an UnmarshalTypeError); members are applied in encounter order,
later duplicates overwriting earlier ones, with Go's case-insensitive key
fallback; trailing non-whitespace after the top-level value is an error.
Go reports a member type error at the end after finishing the object, but the
caller only tests err against nil, so the model short-circuits to `none`;
a top-level null succeeds in Go and leaves the struct at its zero value. -/

def skipWS (cs : List Char) : List Char :=
  cs.dropWhile fun c => c = ' ' || c = '\t' || c = '\n' || c = '\r'

/-- Value of a hex digit (0-9, a-f, A-F by code point), `none` on any other
character. -/
def hexVal (c : Char) : Option Nat :=
  let n := c.toNat
  if 48 ≤ n ∧ n ≤ 57 then some (n - 48)
  else if 97 ≤ n ∧ n ≤ 102 then some (n - 87)
  else if 65 ≤ n ∧ n ≤ 70 then some (n - 55)
  else none

/-- Decode one single-character JSON string escape (Go accepts exactly
these eight; anything else is a syntax error). -/
def escChar (e : Char) : Option Char :=
  if e = '"' then some '"'
  else if e = '\\' then some '\\'
  else if e = '/' then some '/'
  else if e = 'b' then some (Char.ofNat 8)
  else if e = 'f' then some (Char.ofNat 12)
  else if e = 'n' then some '\n'
  else if e = 'r' then some '\r'
  else if e = 't' then some '\t'
  else none

/-- Read the body of a JSON string up to its closing quote, with Go's
unquote semantics: backslash-u takes four hex digits; a high surrogate
followed by a backslash-u low surrogate combines into one supplementary
character; any other surrogate becomes U+FFFD without consuming what
follows and without an error; raw characters below 0x20 are a syntax
error.  Fuel-indexed to keep the recursion structural: every step consumes
at least one input character, so input length plus one never runs out. -/
def readStringBody : Nat → List Char → Option (List Char × List Char)
  | 0, _ => none
  | fuel + 1, cs =>
    match cs with
    | [] => none
    | '"' :: rest => some ([], rest)
    | '\\' :: 'u' :: h1 :: h2 :: h3 :: h4 :: rest =>
      (match hexVal h1, hexVal h2, hexVal h3, hexVal h4 with
       | some a, some b, some c, some d =>
         let rr := ((a * 16 + b) * 16 + c) * 16 + d
         if 0xD800 ≤ rr ∧ rr ≤ 0xDFFF then
           match rest with
           | '\\' :: 'u' :: g1 :: g2 :: g3 :: g4 :: rest2 =>
             (match hexVal g1, hexVal g2, hexVal g3, hexVal g4 with
              | some a2, some b2, some c2, some d2 =>
                let rr1 := ((a2 * 16 + b2) * 16 + c2) * 16 + d2
                if rr < 0xDC00 ∧ 0xDC00 ≤ rr1 ∧ rr1 ≤ 0xDFFF then
                  (readStringBody fuel rest2).map fun (s, r) =>
                    (Char.ofNat (0x10000 + (rr - 0xD800) * 0x400 + (rr1 - 0xDC00)) :: s, r)
                else
                  (readStringBody fuel rest).map fun (s, r) => (Char.ofNat 0xFFFD :: s, r)
              | _, _, _, _ =>
                (readStringBody fuel rest).map fun (s, r) => (Char.ofNat 0xFFFD :: s, r))
           | _ => (readStringBody fuel rest).map fun (s, r) => (Char.ofNat 0xFFFD :: s, r)
         else
           (readStringBody fuel rest).map fun (s, r) => (Char.ofNat rr :: s, r)
       | _, _, _, _ => none)
    | '\\' :: e :: rest =>
      (escChar e).bind fun c =>
        (readStringBody fuel rest).map fun (s, r) => (c :: s, r)
    | c :: rest =>
      if c = '\\' || c.toNat < 0x20 then none
      else (readStringBody fuel rest).map fun (s, r) => (c :: s, r)

/-- Read a complete JSON string literal. -/
def readJsonString (cs : List Char) : Option (String × List Char) :=
  match cs with
  | '"' :: rest => (readStringBody (rest.length + 1) rest).map fun (s, r) => (⟨s⟩, r)
  | _ => none

/-- Fractional part of a JSON number (optional; at least one digit when the
decimal point is present). -/
def readFrac : List Char → Option (List Char)
  | '.' :: r =>
    if (r.takeWhile isDigitCh).isEmpty then none
    else some (r.dropWhile isDigitCh)
  | cs => some cs

/-- Digits of a JSON exponent after its marker, with an optional sign. -/
def readExpDigits (cs : List Char) : Option (List Char) :=
  let r := match cs with
    | '+' :: r2 => r2
    | '-' :: r2 => r2
    | _ => cs
  if (r.takeWhile isDigitCh).isEmpty then none
  else some (r.dropWhile isDigitCh)

/-- Exponent part of a JSON number (optional). -/
def readExp : List Char → Option (List Char)
  | 'e' :: r => readExpDigits r
  | 'E' :: r => readExpDigits r
  | cs => some cs

/-- A JSON number: optional minus, an integer part with no leading zero,
optional fraction and exponent.  Returns the remaining input. -/
def readNumber (cs : List Char) : Option (List Char) :=
  let cs2 := match cs with
    | '-' :: r => r
    | _ => cs
  match cs2 with
  | '0' :: r => (readFrac r).bind readExp
  | c :: r =>
    if isDigitCh c then (readFrac (r.dropWhile isDigitCh)).bind readExp
    else none
  | [] => none

/-- A decoded JSON value.  Number contents are irrelevant to the adapter
(a number can only appear as a skipped unknown member or as a type error for
a known field), so `num` carries no payload. -/
inductive Json where
  | str (s : String)
  | num
  | boolean (b : Bool)
  | null
  | arr (elems : List Json)
  | obj (members : List (String × Json))

/-! The parser is fuel-indexed to make termination evident; every two calls
consume at least one input character, so fuel of twice the input length plus
a constant never runs out on any input. -/

mutual

/-- Parse one JSON value (leading whitespace allowed). -/
def parseJsonValue : Nat → List Char → Option (Json × List Char)
  | 0, _ => none
  | fuel + 1, cs =>
    match skipWS cs with
    | '"' :: rest => (readJsonString ('"' :: rest)).map fun (s, r) => (.str s, r)
    | '{' :: rest =>
      (match skipWS rest with
       | '}' :: r => some (.obj [], r)
       | _ => (parseObjMembers fuel rest).map fun (ms, r) => (.obj ms, r))
    | '[' :: rest =>
      (match skipWS rest with
       | ']' :: r => some (.arr [], r)
       | _ => (parseArrElems fuel rest).map fun (es, r) => (.arr es, r))
    | 't' :: 'r' :: 'u' :: 'e' :: r => some (.boolean true, r)
    | 'f' :: 'a' :: 'l' :: 's' :: 'e' :: r => some (.boolean false, r)
    | 'n' :: 'u' :: 'l' :: 'l' :: r => some (.null, r)
    | c :: rest =>
      if c = '-' || isDigitCh c then
        (readNumber (c :: rest)).map fun r => (.num, r)
      else none
    | [] => none

/-- Parse the members of a nonempty JSON object after its opening brace,
up to and including the closing brace. -/
def parseObjMembers : Nat → List Char → Option (List (String × Json) × List Char)
  | 0, _ => none
  | fuel + 1, cs =>
    (readJsonString (skipWS cs)).bind fun (k, cs) =>
    match skipWS cs with
    | ':' :: cs =>
      (parseJsonValue fuel cs).bind fun (v, cs) =>
      match skipWS cs with
      | ',' :: cs => (parseObjMembers fuel cs).map fun (ms, r) => ((k, v) :: ms, r)
      | '}' :: r => some ([(k, v)], r)
      | _ => none
    | _ => none

/-- Parse the elements of a nonempty JSON array after its opening bracket,
up to and including the closing bracket. -/
def parseArrElems : Nat → List Char → Option (List Json × List Char)
  | 0, _ => none
  | fuel + 1, cs =>
    (parseJsonValue fuel cs).bind fun (v, cs) =>
    match skipWS cs with
    | ',' :: cs => (parseArrElems fuel cs).map fun (es, r) => (v :: es, r)
    | ']' :: r => some ([v], r)
    | _ => none

end

/-- Model of the `channelIdentifier` struct of the socket adapter
(json keys `channel` and `chat_channel`). -/
structure channelIdentifier where
  channel : String
  chatChannel : String
deriving DecidableEq, Repr

/-- One member applied to the struct being decoded, as `json.Unmarshal`
does it: a key naming a struct field (exactly or case-insensitively) must
carry a string (set the field) or null (leave it unchanged) — any other
value type is an UnmarshalTypeError, which makes the caller's err non-nil;
a member with an unknown key is skipped whatever its value. -/
def setIdentifierField (acc : channelIdentifier) (kv : String × Json) :
    Option channelIdentifier :=
  if goEqualFold kv.1 "channel" then
    match kv.2 with
    | .str v => some { acc with channel := v }
    | .null => some acc
    | _ => none
  else if goEqualFold kv.1 "chat_channel" then
    match kv.2 with
    | .str v => some { acc with chatChannel := v }
    | .null => some acc
    | _ => none
  else some acc

/-- Apply the members of a decoded object in encounter order. -/
def decodeIdentifierFields :
    channelIdentifier → List (String × Json) → Option channelIdentifier
  | acc, [] => some acc
  | acc, kv :: rest =>
    (setIdentifierField acc kv).bind fun acc2 =>
      decodeIdentifierFields acc2 rest

/-- Model of `json.Unmarshal([]byte(rawIdentifier), &id)` for
`channelIdentifier`: `none` exactly when Go leaves err non-nil — malformed
JSON, trailing data, a non-object non-null top-level value, or a known
field carrying a non-string non-null value.  A top-level null succeeds in Go
and leaves the zero struct. -/
def unmarshalChannelIdentifier (s : String) : Option channelIdentifier :=
  (parseJsonValue (2 * s.length + 4) s.toList).bind fun (v, rest) =>
    if (skipWS rest).isEmpty then
      match v with
      | .obj members => decodeIdentifierFields { channel := "", chatChannel := "" } members
      | .null => some { channel := "", chatChannel := "" }
      | _ => none
    else none

/-- The socket adapter's `Client` struct. -/
structure HackrtvClient where
  wsURL : String
  token : String
  aliasName : String  -- the Go field is named alias, a reserved word here
  channel : String
deriving DecidableEq, Repr

/-- Model of `hackrtv.NewClient`. -/
def hackrtvNewClient (wsURL token aliasName channel : String) : HackrtvClient :=
  { wsURL := wsURL, token := token, aliasName := aliasName, channel := channel }

/-- Model of `Client.matchesSubscription`: decode the raw identifier and
compare struct fields; a decode error means no match. -/
def matchesSubscription (c : HackrtvClient) (rawIdentifier : String) : Bool :=
  match unmarshalChannelIdentifier rawIdentifier with
  | none => false
  | some id => id.channel == "LiveChatChannel" && id.chatChannel == c.channel

/-- The nested author struct of a packet (json key `grid_hackr`). -/
structure GridHackr where
  id : Int
  hackrAlias : String
  role : String
deriving DecidableEq, Repr

/-- Model of the `packet` struct of the socket adapter. -/
structure Packet where
  id : Int
  content : String
  createdAt : String
  dropped : Bool
  gridHackr : GridHackr
deriving DecidableEq, Repr

/-- Model of `packetToMessage`: parse `created_at` as RFC3339, falling back to
the current time (the `now` parameter) when parsing errors. -/
def packetToMessage (now : Int) (pkt : Packet) : Message :=
  let ts := match parseRFC3339 pkt.createdAt with
    | some t => t
    | none => now
  { platform := .HackrTV
    username := pkt.gridHackr.hackrAlias
    timestamp := ts
    content := pkt.content }

/-- The decoded inner payload of a data frame.  `unrecognized` stands for
every inner message the read loop skips silently: an envelope whose JSON does
not decode, an envelope `type` other than `initial_packets` and `new_packet`,
or an inner payload whose full decode fails. -/
inductive InnerPayload where
  | initialPackets (pkts : List Packet)
  | newPacket (pkt : Packet)
  | unrecognized
deriving DecidableEq, Repr

/-- Model of the `cableMessage` frame as the read loop observes it:
the protocol `type` (empty string when absent), the decoded inner `message`
(`none` when the JSON field is absent), and the raw `identifier` string. -/
structure CableFrame where
  type : String
  message : Option InnerPayload
  identifier : String
deriving DecidableEq, Repr

/-- How the read loop terminates. -/
inductive ReadEnd where
  /-- the next read of the socket failed (connection closed, etc.) -/
  | readError
  /-- a reject_subscription frame: fatal error naming the channel -/
  | rejected (channel : String)
  /-- a disconnect frame: fatal error with the server message -/
  | disconnected
deriving DecidableEq, Repr

/-- Messages a single data frame makes the read loop emit, mirroring the body
of `readLoop` after the protocol-type switch: frames for other subscriptions,
absent inner messages and undecodable payloads are skipped; in a batch every
dropped packet is skipped; a dropped single packet is skipped. -/
def dataFrameEmits (c : HackrtvClient) (now : Int) (f : CableFrame) :
    List Message :=
  if !matchesSubscription c f.identifier then []
  else
    match f.message with
    | none => []
    | some (.initialPackets pkts) =>
      (pkts.filter fun p => !p.dropped).map (packetToMessage now)
    | some (.newPacket p) => if p.dropped then [] else [packetToMessage now p]
    | some .unrecognized => []

/-- Model of `Client.readLoop` over the sequence of frames the socket
delivers: the Go loop reads one frame at a time and for each one runs the
protocol-type switch (`ping` and `confirm_subscription` are skipped,
`reject_subscription` and `disconnect` return fatal errors), then the data
path of `dataFrameEmits`.  When the frame list is exhausted the next read
fails, which the loop returns as a read error. Returns the emitted messages
in order, with the terminal result. -/
def readLoopRun (c : HackrtvClient) (now : Int) :
    List CableFrame → List Message × ReadEnd
  | [] => ([], .readError)
  | f :: rest =>
    if f.type == "ping" then readLoopRun c now rest
    else if f.type == "confirm_subscription" then readLoopRun c now rest
    else if f.type == "reject_subscription" then ([], .rejected c.channel)
    else if f.type == "disconnect" then ([], .disconnected)
    else
      let tail := readLoopRun c now rest
      (dataFrameEmits c now f ++ tail.1, tail.2)

/-- The messages the read loop emits. -/
def readLoopEmits (c : HackrtvClient) (now : Int) (frames : List CableFrame) :
    List Message :=
  (readLoopRun c now frames).1

/-- A frame carrying a packet payload for this adapter's own subscription:
a data frame (no protocol type), an identifier matching the subscription, and
an inner payload of one of the two packet shapes. -/
def isOwnDataFrame (c : HackrtvClient) (f : CableFrame) : Bool :=
  f.type == "" && matchesSubscription c f.identifier &&
    (match f.message with
     | some (.initialPackets _) => true
     | some (.newPacket _) => true
     | _ => false)

/-- The packets a frame carries. -/
def framePackets (f : CableFrame) : List Packet :=
  match f.message with
  | some (.initialPackets pkts) => pkts
  | some (.newPacket p) => [p]
  | _ => []

/-! IRC source adapter (package twitch, src/internal/twitch/client.go). -/

/-- The IRC adapter's `Client` struct (the live `net.Conn` is not modelled). -/
structure TwitchClient where
  channel : String
deriving DecidableEq, Repr

/-- Model of `twitch.NewClient`: stores the lowercased channel name. -/
def twitchNewClient (channel : String) : TwitchClient :=
  { channel := goToLower channel }

/-- The JOIN command `Connect` writes after registration:
fmt.Fprintf(conn, "JOIN #%s\r\n", c.channel). -/
def joinCommand (c : TwitchClient) : String :=
  "JOIN #" ++ c.channel ++ "\r\n"

/-- Model of `parsePrivMsg` (src/internal/twitch/client.go): `none` models the
`(message.Message{}, false)` return.  `now` models the `time.Now()` stamped
on a successful parse. -/
def parsePrivMsg (now : Int) (line : String) : Option Message :=
  if !goContains line "PRIVMSG" then none
  else if !goHasPre line ":" then none
  else
    match goSplitN2 (line.drop 1) "!" with
    | (_, none) => none
    | (username, some _) =>
      match goIndex line " :" with
      | none => none
      | some _ =>
        match (goSplitN2 line "PRIVMSG").2 with
        | none => none
        | some afterPrivmsg =>
          match goIndex afterPrivmsg ":" with
          | none => none
          | some contentIdx =>
            some { platform := .Twitch
                   username := username
                   timestamp := now
                   content := ⟨afterPrivmsg.toList.drop (contentIdx + 1)⟩ }

/-- Sender extraction as the specification words it: the text between the
leading marker and the first exclamation mark. -/
def senderPerSpec (line : String) : Option String :=
  if goHasPre line ":" then
    (goIndex (line.drop 1) "!").map fun i => ⟨(line.drop 1).toList.take i⟩
  else none

/-- Payload extraction as the specification words it: the text following the
first space-colon occurrence after the PRIVMSG token. -/
def payloadPerSpec (line : String) : Option String :=
  (goSplitN2 line "PRIVMSG").2.bind fun afterPrivmsg =>
    (goIndex afterPrivmsg " :").map fun j =>
      ⟨afterPrivmsg.toList.drop (j + 2)⟩

/-- Payload extraction as the code actually performs it (the amended reading):
the text following the first colon after the PRIVMSG token, no leading space
required of that colon. -/
def payloadPerCode (line : String) : Option String :=
  (goSplitN2 line "PRIVMSG").2.bind fun afterPrivmsg =>
    (goIndex afterPrivmsg ":").map fun j =>
      ⟨afterPrivmsg.toList.drop (j + 1)⟩

/-! Polling source adapter (package youtube, src/internal/youtube/client.go). -/

/-- The polling adapter's `Client` struct.  `pollingRateMillis` models the
`pollingRate time.Duration` field in milliseconds. -/
structure YTClient where
  apiKey : String
  videoID : String
  liveChatID : String
  pageToken : String
  pollingRateMillis : Int
deriving DecidableEq, Repr

/-- Model of `youtube.NewClient`: initial polling rate 3 seconds. -/
def youtubeNewClient (apiKey videoID : String) : YTClient :=
  { apiKey := apiKey, videoID := videoID, liveChatID := ""
    pageToken := "", pollingRateMillis := 3000 }

/-- One item of the live-chat messages response (the fields the adapter
reads). -/
structure ChatItem where
  publishedAt : String
  displayMessage : String
  displayName : String
deriving DecidableEq, Repr

/-- The decoded body of a successful paginated fetch. -/
structure LiveChatResponse where
  nextPageToken : String
  pollingIntervalMillis : Int
  items : List ChatItem
deriving DecidableEq, Repr

/-- The timestamp `fetchMessages` gives an item: parse `publishedAt` with the
RFC3339 layout discarding the error (yielding the zero time on failure), then
substitute `time.Now()` whenever the result is the zero instant. -/
def itemTimestamp (now : Int) (publishedAt : String) : Int :=
  let timestamp := (parseRFC3339 publishedAt).getD 0
  if timestamp == 0 then now else timestamp

/-- The messages one successful fetch emits. -/
def fetchEmits (now : Int) (r : LiveChatResponse) : List Message :=
  r.items.map fun it =>
    { platform := .YouTube
      username := it.displayName
      timestamp := itemTimestamp now it.publishedAt
      content := it.displayMessage }

/-- State update of one successful `fetchMessages` call: store the next page
token; adopt the server-suggested interval as the polling rate when positive,
keep the previous rate otherwise. -/
def applyFetchResponse (c : YTClient) (r : LiveChatResponse) : YTClient :=
  { c with
    pageToken := r.nextPageToken
    pollingRateMillis :=
      if r.pollingIntervalMillis > 0 then r.pollingIntervalMillis
      else c.pollingRateMillis }

/-- The ticker period of `Connect`: `time.NewTicker(c.pollingRate)` is called
once, before the first fetch, and the ticker is never reset afterwards, so the
sleep between consecutive fetches is the polling rate the client held on
entry, whatever later responses suggest. -/
def connectTickerPeriodMillis (c : YTClient) : Int :=
  c.pollingRateMillis

/-- The sleep (in milliseconds) the loop performs before each of the fetches
that follow the given responses: always the period of the ticker made at
`Connect` entry. -/
def sleepsBetweenFetches (c : YTClient) (resps : List LiveChatResponse) :
    List Int :=
  resps.map fun _ => connectTickerPeriodMillis c

/-- One item of the videos metadata response. -/
structure VideoItem where
  activeLiveChatId : String
deriving DecidableEq, Repr

/-- The decoded body of the videos metadata response. -/
structure VideoResponse where
  items : List VideoItem
deriving DecidableEq, Repr

/-- Model of `fetchLiveChatID` on a decoded 200 response: no item means the
video was not found; an empty `activeLiveChatId` means the target has no
active chat session; both are errors returned to `Connect`. -/
def fetchLiveChatID (videoID : String) (resp : VideoResponse) :
    Except String String :=
  match resp.items with
  | [] => .error ("video not found: " ++ videoID)
  | it :: _ =>
    if it.activeLiveChatId == "" then
      .error ("video " ++ videoID ++ " does not have an active live chat")
    else .ok it.activeLiveChatId

/-- Result of one `fetchMessages` call as `Connect` sees it. -/
inductive FetchResult where
  | ok (resp : LiveChatResponse)
  | fetchError (e : String)
deriving DecidableEq, Repr

/-- How `Connect` of the polling adapter terminates (apart from
cancellation). -/
inductive ConnectEnd where
  /-- metadata resolution failed: returned wrapped, immediately -/
  | fatalMetadata (e : String)
  /-- the initial fetch, before the ticker loop, failed: returned immediately -/
  | fatalInitialFetch (e : String)
  /-- the ticker loop runs until cancellation; fetch errors inside it are
  logged and do not end it -/
  | pollingUntilCancelled
deriving DecidableEq, Repr

/-- Control flow of `youtube.Client.Connect`: a metadata error is returned
at once (wrapped); then one fetch runs before the loop and its error is
returned as-is; once the loop is entered no fetch result ends it. -/
def youtubeConnectEnd (metaResult : Except String String)
    (initialFetch : FetchResult) (laterFetches : List FetchResult) :
    ConnectEnd :=
  match metaResult with
  | .error e => .fatalMetadata ("failed to get live chat ID: " ++ e)
  | .ok _ =>
    match initialFetch with
    | .fetchError e => .fatalInitialFetch e
    | .ok _ =>
      match laterFetches with
      | _ => .pollingUntilCancelled

/-- The log lines of the ticker loop: each fetch error is printed and the
loop continues with the remaining ticks. -/
def pollLoopLogs : List FetchResult → List String
  | [] => []
  | .ok _ :: rest => pollLoopLogs rest
  | .fetchError e :: rest =>
    ("YouTube fetch error: " ++ e) :: pollLoopLogs rest

/-! Bridge sender (package uplink, embedded in
src/internal/display/printer_test.go). -/

/-- UTF-8 encoding of one character, as Go lays strings out in bytes. -/
def utf8EncodeCharGo (c : Char) : List Nat :=
  let n := c.toNat
  if n < 0x80 then [n]
  else if n < 0x800 then
    [0xC0 ||| (n >>> 6), 0x80 ||| (n &&& 0x3F)]
  else if n < 0x10000 then
    [0xE0 ||| (n >>> 12), 0x80 ||| ((n >>> 6) &&& 0x3F), 0x80 ||| (n &&& 0x3F)]
  else
    [0xF0 ||| (n >>> 18), 0x80 ||| ((n >>> 12) &&& 0x3F),
      0x80 ||| ((n >>> 6) &&& 0x3F), 0x80 ||| (n &&& 0x3F)]

/-- The bytes of a Go string (Go `len` and slicing operate on these). -/
def goBytes (s : String) : List Nat :=
  (s.toList.map utf8EncodeCharGo).flatten

/-- The formatted string `uplink.FormatContent` builds before truncation:
fmt.Sprintf("[%s] %s: %s", msg.Platform, msg.Username, msg.Content). -/
def formatContentStr (msg : Message) : String :=
  "[" ++ msg.platform.str ++ "] " ++ msg.username ++ ": " ++ msg.content

/-- Model of `uplink.FormatContent` at byte granularity: the formatted string,
cut to its first 512 bytes when longer (the Go code slices `s[:512]`, a raw
byte cut). -/
def FormatContent (msg : Message) : List Nat :=
  let s := goBytes (formatContentStr msg)
  if s.length > 512 then s.take 512 else s

/-- Classification of one `uplink.Client.Send` call by response status. -/
inductive SendOutcome where
  /-- 201: nil error -/
  | success
  /-- 429: ErrRateLimit -/
  | rateLimit
  /-- any other status: error text naming the status code -/
  | unexpectedStatus (code : Nat)
deriving DecidableEq, Repr

/-- The status switch at the end of `uplink.Client.Send`. -/
def sendClassify (statusCode : Nat) : SendOutcome :=
  if statusCode == 201 then .success
  else if statusCode == 429 then .rateLimit
  else .unexpectedStatus statusCode

/-- The error text `Send` returns for an unexpected status. -/
def sendErrorText (code : Nat) : String :=
  "uplink: unexpected status " ++ toString code

/-- Observable events of the `uplink.Client.Run` loop. -/
inductive UplinkEvent where
  /-- one Send attempt for a message, with the HTTP status it got -/
  | sent (msg : Message) (statusCode : Nat)
  /-- the fixed rate-limit cool-down (seconds) -/
  | rateLimitPauseSeconds (n : Nat)
  /-- a non-fatal send error printed to the diagnostic stream -/
  | loggedSendError (text : String)
deriving DecidableEq, Repr

/-- Model of `uplink.Client.Run` over the queued messages, each paired with
the HTTP status its Send receives: 201 proceeds to the next message; 429
pauses 2 seconds and proceeds to the next message without retrying; any other
status is logged and the loop continues.  Cancellation is not modelled (it
only cuts the trace short). -/
def uplinkRun : List (Message × Nat) → List UplinkEvent
  | [] => []
  | (msg, status) :: rest =>
    .sent msg status ::
      (match sendClassify status with
       | .success => uplinkRun rest
       | .rateLimit => .rateLimitPauseSeconds 2 :: uplinkRun rest
       | .unexpectedStatus code =>
         .loggedSendError (sendErrorText code) :: uplinkRun rest)

/-- The messages a trace attempted to send, in order. -/
def uplinkAttempts (events : List UplinkEvent) : List Message :=
  events.filterMap fun e =>
    match e with
    | .sent m _ => some m
    | _ => none

/-! Dispatcher (main.go, the fan-out goroutine and isBridgeEcho). -/

/-- Model of `isBridgeEcho` (main.go): an HTV message from our own relay
alias whose content starts with one of the two bridge tags. -/
def isBridgeEcho (msg : Message) (relayAlias : String) : Bool :=
  msg.platform == .HackrTV &&
    goEqualFold msg.username relayAlias &&
    (goHasPre msg.content "[TTV] " || goHasPre msg.content "[YT_] ")

/-- What the dispatcher does with one message: whether it is sent to the
printer channel, and whether it is offered (a non-blocking select that may
still drop on a full buffer) to the uplink channel. -/
structure DispatchDecision where
  sentToPrinter : Bool
  offeredToUplink : Bool
deriving DecidableEq, Repr

/-- One iteration of the dispatcher goroutine in main.go.  `bridgeMode` models
`uplinkCh != nil`: with bridging on, an echo is skipped entirely; every other
message goes to the printer and is offered to the uplink only when its
platform is not HackrTV. -/
def dispatchStep (bridgeMode : Bool) (relayAlias : String) (msg : Message) :
    DispatchDecision :=
  if bridgeMode && isBridgeEcho msg relayAlias then
    { sentToPrinter := false, offeredToUplink := false }
  else
    { sentToPrinter := true
      offeredToUplink := bridgeMode && !(msg.platform == .HackrTV) }

/-! Concrete scenario data: the end-to-end frame sequence of the spec
(one batch with a dropped and a live historical packet, then a live packet,
then a dropped live packet), mirroring TestConnectFullProtocol. -/

/-- The adapter of the scenario: channel slug main. -/
def cScenario : HackrtvClient := hackrtvNewClient "ws://localhost/cable" "" "" "main"

/-- The serialized subscription identifier of the scenario frames. -/
def identScenario : String :=
  "\x7b\"channel\":\"LiveChatChannel\",\"chat_channel\":\"main\"\x7d"

/-- Historical packet, dropped. -/
def pktDroppedOld : Packet :=
  { id := 1, content := "old dropped msg", createdAt := "2025-01-01T00:00:00Z"
    dropped := true, gridHackr := { id := 1, hackrAlias := "someone", role := "operative" } }

/-- Historical packet, live. -/
def pktOld : Packet :=
  { id := 2, content := "old msg", createdAt := "2025-01-01T00:00:01Z"
    dropped := false, gridHackr := { id := 2, hackrAlias := "hackr1", role := "operative" } }

/-- New packet, live. -/
def pktLive : Packet :=
  { id := 3, content := "live msg", createdAt := "2025-01-01T00:01:00Z"
    dropped := false, gridHackr := { id := 3, hackrAlias := "hackr2", role := "admin" } }

/-- New packet, dropped. -/
def pktDroppedLive : Packet :=
  { id := 4, content := "dropped live", createdAt := "2025-01-01T00:02:00Z"
    dropped := true, gridHackr := { id := 4, hackrAlias := "hackr3", role := "operative" } }

/-- The scenario frame sequence, in order. -/
def scenarioFrames : List CableFrame :=
  [ { type := "", message := some (.initialPackets [pktDroppedOld, pktOld])
      identifier := identScenario }
  , { type := "", message := some (.newPacket pktLive), identifier := identScenario }
  , { type := "", message := some (.newPacket pktDroppedLive), identifier := identScenario } ]

/-! Theorems for the claims. -/

/-- C9: the IRC adapter constructor stores the lowercased channel name, the
JOIN command sent on connect uses that lowercased name, and two clients
constructed from channel names differing only in letter case send identical
JOIN commands. -/
theorem twitch_join_lowercased :
    (∀ s, (twitchNewClient s).channel = goToLower s)
    ∧ (∀ s, joinCommand (twitchNewClient s) = "JOIN #" ++ goToLower s ++ "\r\n")
    ∧ (∀ a b, goToLower a = goToLower b →
        joinCommand (twitchNewClient a) = joinCommand (twitchNewClient b)) := by
  refine ⟨fun s => rfl, fun s => rfl, fun a b h => ?_⟩
  simp [joinCommand, twitchNewClient, h]

/-- Witness for C9: UPPERCASE and uppercase yield the same JOIN command. -/
theorem twitch_join_lowercased_witness :
    joinCommand (twitchNewClient "UPPERCASE")
      = joinCommand (twitchNewClient "uppercase") :=
  twitch_join_lowercased.2.2 "UPPERCASE" "uppercase" (by decide)

/-- C10: the polling adapter substitutes the current time exactly when the
RFC3339 parse of publishedAt yields the zero time instant, so the validly
formatted string 0001-01-01T00:00:00Z (which parses successfully, to the zero
instant) is replaced by the current time, just like every unparsable
string; every string parsing to a nonzero instant keeps that instant. -/
theorem itemTimestamp_zero_substitution :
    parseRFC3339 "0001-01-01T00:00:00Z" = some 0
    ∧ (∀ now, itemTimestamp now "0001-01-01T00:00:00Z" = now)
    ∧ (∀ now s, parseRFC3339 s = none → itemTimestamp now s = now)
    ∧ (∀ now s t, parseRFC3339 s = some t → t ≠ 0 → itemTimestamp now s = t) := by
  refine ⟨by decide, fun now => rfl, fun now s h => ?_, fun now s t h ht => ?_⟩
  · simp [itemTimestamp, h]
  · simp [itemTimestamp, h, ht]

/-- Witness for C10: an unparsable publishedAt and the zero-instant
publishedAt both get the current time (here 5). -/
theorem itemTimestamp_zero_substitution_witness :
    itemTimestamp 5 "not-a-date" = 5 ∧ itemTimestamp 5 "0001-01-01T00:00:00Z" = 5 :=
  ⟨itemTimestamp_zero_substitution.2.2.1 5 "not-a-date" (by decide),
   itemTimestamp_zero_substitution.2.1 5⟩

/-- C4 counterexample: the claim says every error from a paginated message
fetch is non-fatal, but the fetch performed before the ticker loop is fatal:
with metadata resolution succeeding and the first paginated fetch failing,
Connect returns that error immediately instead of continuing to poll. -/
theorem youtubeConnect_initial_fetch_fatal_cex :
    youtubeConnectEnd (.ok "chat-id") (.fetchError "API returned status 500") []
      = .fatalInitialFetch "API returned status 500"
    ∧ ConnectEnd.fatalInitialFetch "API returned status 500"
        ≠ ConnectEnd.pollingUntilCancelled :=
  ⟨rfl, by decide⟩

/-- C4 amended: a metadata-resolution error (including the target having no
active chat session, and the video not being found) is fatal and returned
immediately from Connect; the initial fetch performed before the polling loop
is also fatal — its error is returned immediately; every fetch error inside
the polling loop is non-fatal: it is logged and the loop continues at the
next tick. -/
theorem youtubeConnect_error_handling (e chatID : String) (r : LiveChatResponse)
    (initF : FetchResult) (later : List FetchResult) :
    youtubeConnectEnd (.error e) initF later
        = .fatalMetadata ("failed to get live chat ID: " ++ e)
    ∧ youtubeConnectEnd (.ok chatID) (.fetchError e) later = .fatalInitialFetch e
    ∧ youtubeConnectEnd (.ok chatID) (.ok r) later = .pollingUntilCancelled
    ∧ pollLoopLogs (.fetchError e :: later)
        = ("YouTube fetch error: " ++ e) :: pollLoopLogs later
    ∧ pollLoopLogs (.ok r :: later) = pollLoopLogs later
    ∧ (∀ v, fetchLiveChatID v { items := [] } = .error ("video not found: " ++ v))
    ∧ (∀ v, fetchLiveChatID v { items := [{ activeLiveChatId := "" }] }
        = .error ("video " ++ v ++ " does not have an active live chat")) :=
  ⟨rfl, rfl, rfl, rfl, rfl, fun _ => rfl, fun _ => rfl⟩

/-- C5: the fetch handler adopts a positive server-suggested interval into
the pollingRate field (keeping the previous one otherwise), but the ticker
that paces the loop is created once from the initial 3-second rate and never
reset, so the sleep between fetches stays 3000 ms even after a response
suggesting 10000 ms — the adopted period is never used for pacing. -/
theorem youtube_pollingInterval_not_used_for_pacing :
    (youtubeNewClient "key" "vid").pollingRateMillis = 3000
    ∧ (applyFetchResponse (youtubeNewClient "key" "vid")
        { nextPageToken := "p2", pollingIntervalMillis := 10000, items := [] }).pollingRateMillis
        = 10000
    ∧ (applyFetchResponse (youtubeNewClient "key" "vid")
        { nextPageToken := "p2", pollingIntervalMillis := 0, items := [] }).pollingRateMillis
        = 3000
    ∧ sleepsBetweenFetches (youtubeNewClient "key" "vid")
        [ { nextPageToken := "p2", pollingIntervalMillis := 10000, items := [] }
        , { nextPageToken := "p3", pollingIntervalMillis := 10000, items := [] } ]
        = [3000, 3000]
    ∧ sleepsBetweenFetches (youtubeNewClient "key" "vid")
        [ { nextPageToken := "p2", pollingIntervalMillis := 10000, items := [] }
        , { nextPageToken := "p3", pollingIntervalMillis := 10000, items := [] } ]
        ≠ [3000, 10000] :=
  ⟨rfl, by decide, by decide, rfl, by decide⟩

/-- C7: the bridge sender's outbound content is the formatted
"[tag] username: body" string; whenever its byte length exceeds 512 it is cut
to exactly its first 512 bytes (a raw byte cut), and the result never exceeds
512 bytes. -/
theorem FormatContent_truncation (msg : Message) :
    (FormatContent msg).length ≤ 512
    ∧ ((goBytes (formatContentStr msg)).length ≤ 512 →
        FormatContent msg = goBytes (formatContentStr msg))
    ∧ ((goBytes (formatContentStr msg)).length > 512 →
        FormatContent msg = (goBytes (formatContentStr msg)).take 512
          ∧ (FormatContent msg).length = 512) := by
  have hFC : FormatContent msg
      = if (goBytes (formatContentStr msg)).length > 512 then
          (goBytes (formatContentStr msg)).take 512
        else goBytes (formatContentStr msg) := rfl
  by_cases h : (goBytes (formatContentStr msg)).length > 512
  · rw [hFC, if_pos h]
    exact ⟨by rw [List.length_take]; omega,
      fun hle => absurd h (by omega),
      fun _ => ⟨rfl, by rw [List.length_take]; omega⟩⟩
  · rw [hFC, if_neg h]
    exact ⟨by omega, fun _ => rfl, fun hgt => absurd hgt h⟩

set_option maxRecDepth 100000 in
/-- Witness for C7: a message whose formatted content is 600 bytes of body
plus the tag framing is cut to exactly 512 bytes. -/
theorem FormatContent_truncation_witness :
    (FormatContent { platform := .Twitch, username := "user", timestamp := 0
                     content := String.mk (List.replicate 600 'a') }).length = 512 :=
  ((FormatContent_truncation _).2.2 (by decide)).2

/-- C8: the bridge sender treats a 201 response as success and proceeds to
the next message; a 429 is a rate-limit condition after which the sender
pauses for a fixed 2-second cool-down and resumes with the next queued
message, not retrying the one that triggered it (every queued message is
attempted exactly once, in order); any other status is a non-fatal send
error whose text names the status code, logged, and the loop continues. -/
theorem uplinkRun_status_handling :
    (∀ queue : List (Message × Nat),
      uplinkAttempts (uplinkRun queue) = queue.map Prod.fst)
    ∧ (∀ m rest, uplinkRun ((m, 201) :: rest) = .sent m 201 :: uplinkRun rest)
    ∧ (∀ m rest, uplinkRun ((m, 429) :: rest)
        = .sent m 429 :: .rateLimitPauseSeconds 2 :: uplinkRun rest)
    ∧ (∀ m status rest, status ≠ 201 → status ≠ 429 →
        uplinkRun ((m, status) :: rest)
          = .sent m status ::
              .loggedSendError ("uplink: unexpected status " ++ toString status) ::
              uplinkRun rest) := by
  refine ⟨?_, fun m rest => rfl, fun m rest => rfl,
    fun m status rest h201 h429 => ?_⟩
  · intro queue
    induction queue with
    | nil => rfl
    | cons p rest ih =>
      obtain ⟨m, status⟩ := p
      cases hc : sendClassify status <;>
        simp [uplinkRun, uplinkAttempts, hc, ← ih, uplinkAttempts]
  · have hc : sendClassify status = .unexpectedStatus status := by
      simp [sendClassify, h201, h429]
    simp [uplinkRun, hc, sendErrorText]

/-- Witness for C8: a 422 response is logged with its status code and the
loop continues to the next message, which is sent. -/
theorem uplinkRun_status_handling_witness :
    uplinkRun
        [ ({ platform := .Twitch, username := "u", timestamp := 0, content := "a" }, 422)
        , ({ platform := .YouTube, username := "v", timestamp := 0, content := "b" }, 201) ]
      = [ .sent { platform := .Twitch, username := "u", timestamp := 0, content := "a" } 422
        , .loggedSendError "uplink: unexpected status 422"
        , .sent { platform := .YouTube, username := "v", timestamp := 0, content := "b" } 201 ] := by
  have h := uplinkRun_status_handling.2.2.2
    { platform := .Twitch, username := "u", timestamp := 0, content := "a" } 422
    [ ({ platform := .YouTube, username := "v", timestamp := 0, content := "b" }, 201) ]
    (by decide) (by decide)
  simpa [uplinkRun] using h

/-- C2: in bridge mode a message is judged a self-echo iff its platform is
the socket source, its username case-insensitively equals the configured
relay alias, and its content begins with one of the two bridge tags; an echo
is forwarded to neither sink; every non-echo message goes to the display
sink; and a message is offered to the bridge sink only if its platform is not
the socket source. -/
theorem dispatcher_echo_suppression (relayAlias : String) (msg : Message) :
    (isBridgeEcho msg relayAlias = true ↔
      msg.platform = .HackrTV ∧ goEqualFold msg.username relayAlias = true ∧
        (goHasPre msg.content "[TTV] " = true ∨ goHasPre msg.content "[YT_] " = true))
    ∧ (isBridgeEcho msg relayAlias = true →
        dispatchStep true relayAlias msg
          = { sentToPrinter := false, offeredToUplink := false })
    ∧ (isBridgeEcho msg relayAlias = false →
        (dispatchStep true relayAlias msg).sentToPrinter = true)
    ∧ ((dispatchStep true relayAlias msg).offeredToUplink = true →
        msg.platform ≠ .HackrTV) := by
  refine ⟨?_, fun h => ?_, fun h => ?_, fun h => ?_⟩
  · simp [isBridgeEcho, Bool.and_eq_true, Bool.or_eq_true, beq_iff_eq, and_assoc]
  · simp [dispatchStep, h]
  · simp [dispatchStep, h]
  · by_cases he : isBridgeEcho msg relayAlias = true
    · simp [dispatchStep, he] at h
    · simp [dispatchStep, he, beq_iff_eq] at h
      exact h

/-- Witness for C2: the spec's example triple with relay alias XERAEN — the
tagged socket-source message from the alias is suppressed from both sinks;
the same message from someone else is displayed; the untagged message from
the alias is displayed; a Twitch message is offered to the bridge sink. -/
theorem dispatcher_echo_suppression_witness :
    dispatchStep true "XERAEN"
        { platform := .HackrTV, username := "XERAEN", timestamp := 0
          content := "[TTV] nightbot: !commands" }
      = { sentToPrinter := false, offeredToUplink := false }
    ∧ (dispatchStep true "XERAEN"
        { platform := .HackrTV, username := "someone_else", timestamp := 0
          content := "[TTV] nightbot: !commands" }).sentToPrinter = true
    ∧ (dispatchStep true "XERAEN"
        { platform := .HackrTV, username := "XERAEN", timestamp := 0
          content := "hello grid" }).sentToPrinter = true :=
  ⟨(dispatcher_echo_suppression "XERAEN" _).2.1 (by decide),
   (dispatcher_echo_suppression "XERAEN" _).2.2.1 (by decide),
   (dispatcher_echo_suppression "XERAEN" _).2.2.1 (by decide)⟩

/-- C6: the subscription match predicate returns true exactly on identifier
strings that decode (as JSON, so independently of key order and surrounding
whitespace) to the adapter's own channel class and channel slug; every
malformed string and every string decoding to a different class or slug gets
false. -/
theorem matchesSubscription_decoded_equality (c : HackrtvClient) (s : String) :
    (unmarshalChannelIdentifier s = none → matchesSubscription c s = false)
    ∧ (∀ id, unmarshalChannelIdentifier s = some id →
        (matchesSubscription c s = true ↔
          id.channel = "LiveChatChannel" ∧ id.chatChannel = c.channel)) := by
  refine ⟨fun h => ?_, fun id h => ?_⟩
  · simp [matchesSubscription, h]
  · simp [matchesSubscription, h, Bool.and_eq_true, beq_iff_eq]

/-- Witness for C6: with channel slug main, an identifier with reversed key
order and extra whitespace matches; a mismatched slug and a malformed string
do not. -/
theorem matchesSubscription_decoded_equality_witness :
    matchesSubscription (hackrtvNewClient "ws://localhost/cable" "" "" "main")
        "\x7b \"chat_channel\" : \"main\" , \"channel\" : \"LiveChatChannel\" \x7d" = true
    ∧ matchesSubscription (hackrtvNewClient "ws://localhost/cable" "" "" "main")
        "\x7b\"channel\":\"LiveChatChannel\",\"chat_channel\":\"main\",\"n\":1\x7d" = true
    ∧ matchesSubscription (hackrtvNewClient "ws://localhost/cable" "" "" "main")
        "\x7b\"channel\":\"LiveChatChannel\",\"chat_channel\":\"ma\\u0069n\"\x7d" = true
    ∧ matchesSubscription (hackrtvNewClient "ws://localhost/cable" "" "" "main")
        "\x7b\"channel\":\"LiveChatChannel\",\"chat_channel\":\"other\"\x7d" = false
    ∧ matchesSubscription (hackrtvNewClient "ws://localhost/cable" "" "" "main")
        "not json" = false := by
  refine ⟨?_, ?_, ?_, ?_, ?_⟩
  · exact ((matchesSubscription_decoded_equality _ _).2
      { channel := "LiveChatChannel", chatChannel := "main" } (by decide)).mpr
      ⟨rfl, rfl⟩
  · exact ((matchesSubscription_decoded_equality _ _).2
      { channel := "LiveChatChannel", chatChannel := "main" } (by decide)).mpr
      ⟨rfl, rfl⟩
  · exact ((matchesSubscription_decoded_equality _ _).2
      { channel := "LiveChatChannel", chatChannel := "main" } (by decide)).mpr
      ⟨rfl, rfl⟩
  · have h := ((matchesSubscription_decoded_equality
      (hackrtvNewClient "ws://localhost/cable" "" "" "main")
      "\x7b\"channel\":\"LiveChatChannel\",\"chat_channel\":\"other\"\x7d").2
      { channel := "LiveChatChannel", chatChannel := "other" } (by decide))
    have hne : ¬ (matchesSubscription (hackrtvNewClient "ws://localhost/cable" "" "" "main")
        "\x7b\"channel\":\"LiveChatChannel\",\"chat_channel\":\"other\"\x7d" = true) := by
      intro ht
      exact absurd (h.mp ht).2 (by decide)
    simpa using hne
  · exact (matchesSubscription_decoded_equality _ _).1 (by decide)

/-- C1: over any sequence of frames carrying packet payloads for the
adapter's own subscription, the read loop emits exactly one Message per
non-dropped packet and none for a dropped packet, in both the
initial_packets and the new_packet paths, in the order the packets were
encountered. -/
theorem readLoop_emits_exactly_nonDropped (c : HackrtvClient) (now : Int)
    (frames : List CableFrame)
    (h : ∀ f ∈ frames, isOwnDataFrame c f = true) :
    readLoopEmits c now frames =
      (((frames.map framePackets).flatten.filter fun p => !p.dropped).map
        (packetToMessage now)) := by
  induction frames with
  | nil => rfl
  | cons f rest ih =>
    have hf := h f (List.mem_cons_self f rest)
    have hih := ih fun g hg => h g (List.mem_cons_of_mem f hg)
    simp only [isOwnDataFrame, Bool.and_eq_true, beq_iff_eq] at hf
    obtain ⟨⟨htype, hmatch⟩, hmsg⟩ := hf
    have hrun : readLoopEmits c now (f :: rest)
        = dataFrameEmits c now f ++ readLoopEmits c now rest := by
      simp [readLoopEmits, readLoopRun, htype]
    rw [hrun, hih]
    cases hm : f.message with
    | none => rw [hm] at hmsg; simp at hmsg
    | some inner =>
      rw [hm] at hmsg
      cases inner with
      | unrecognized => simp at hmsg
      | initialPackets pkts =>
        simp [dataFrameEmits, hmatch, hm, framePackets, List.filter_append]
      | newPacket p =>
        by_cases hd : p.dropped
        · simp [dataFrameEmits, hmatch, hm, framePackets, hd]
        · simp [dataFrameEmits, hmatch, hm, framePackets, hd]

/-- Witness for C1: the end-to-end scenario (a batch with one dropped and one
live historical packet, then a live packet, then a dropped live packet)
yields exactly 2 messages: the surviving historical packet first, then the
surviving live packet. -/
theorem readLoop_emits_scenario_witness :
    readLoopEmits cScenario 0 scenarioFrames
        = [packetToMessage 0 pktOld, packetToMessage 0 pktLive]
    ∧ (readLoopEmits cScenario 0 scenarioFrames).map Message.content
        = ["old msg", "live msg"] := by
  have h := readLoop_emits_exactly_nonDropped cScenario 0 scenarioFrames (by decide)
  rw [h]
  exact ⟨rfl, rfl⟩

/-- C3 counterexample: on the line colon-a-bang-b PRIVMSG hash-c colon d
space-colon x, the code yields payload d-space-colon-x (text after the first
colon following PRIVMSG) while the claim's rule (text after the first
space-colon following PRIVMSG) yields x, so the claim's description of the
extraction is false on this input. -/
theorem parsePrivMsg_space_colon_cex :
    (parsePrivMsg 0 ":a!b PRIVMSG #c:d :x").map Message.content = some "d :x"
    ∧ payloadPerSpec ":a!b PRIVMSG #c:d :x" = some "x"
    ∧ (parsePrivMsg 0 ":a!b PRIVMSG #c:d :x").map Message.content
        ≠ payloadPerSpec ":a!b PRIVMSG #c:d :x" :=
  ⟨by decide, by decide, by decide⟩

/-- C3 amended: a line yields a message iff it contains PRIVMSG, starts with
the leading marker, has an exclamation mark after the marker (sender = text
between the marker and the first exclamation mark), contains a space-colon
somewhere in the line, and has a colon after the PRIVMSG token — the payload
being the text following the first colon (not necessarily space-preceded)
after the PRIVMSG token; the two quoted examples behave as stated. -/
theorem parsePrivMsg_amended (now : Int) (line : String) :
    parsePrivMsg now line =
      (if goContains line "PRIVMSG" && goHasPre line ":" &&
          (senderPerSpec line).isSome && goContains line " :" &&
          (payloadPerCode line).isSome then
        some { platform := .Twitch
               username := (senderPerSpec line).getD ""
               timestamp := now
               content := (payloadPerCode line).getD "" }
      else none)
    ∧ parsePrivMsg now ":cooluser!cooluser@cooluser.tmi.twitch.tv PRIVMSG #channel :hello world"
        = some { platform := .Twitch, username := "cooluser", timestamp := now
                 content := "hello world" }
    ∧ parsePrivMsg now "PING :tmi.twitch.tv" = none := by
  refine ⟨?_, rfl, rfl⟩
  by_cases h1 : goContains line "PRIVMSG"
  case neg => simp [parsePrivMsg, h1]
  by_cases h2 : goHasPre line ":"
  case neg => simp [parsePrivMsg, h1, h2]
  simp only [parsePrivMsg, h1, h2, Bool.not_true, Bool.false_eq_true, if_false,
    senderPerSpec, payloadPerCode, if_true]
  cases hib : goIndex (line.drop 1) "!" with
  | none => simp [goSplitN2, hib]
  | some i =>
    cases hsc : goIndex line " :" with
    | none => simp [goSplitN2, hib, hsc, goContains]
    | some j =>
      cases hp : goIndex line "PRIVMSG" with
      | none => exact absurd h1 (by simp [goContains, hp])
      | some k =>
        simp only [goSplitN2, hib, hsc, hp, goContains, Option.isSome_some,
          Bool.true_and, Bool.and_true]
        rcases hq : goIndex (⟨List.drop (k + 7) line.data⟩ : String) ":" with _ | m <;>
          simp [hq]

end Relay
